import Mathlib

/-!
# Verification of the outbound Vapi caller dispatch engine

Shallow embedding of `src/outbound_vapi_caller.py`.

The per-call unit of work `make_vapi_call` is embedded as a pure function
from a call row and a transport-level oracle (`CallEnv`, the observable
result of the single HTTP POST: an HTTP response, a client error, a
timeout, or an unexpected exception) to the single outcome record the
Python coroutine appends to the shared `results` dictionary.

The bounded-concurrency execution of `process_calls` (an `asyncio`
Semaphore gating the coroutines launched by `asyncio.gather`) is embedded
as a small-step scheduler relation: each task moves
waiting → running → done, acquiring one semaphore permit to enter
`running` (the phase in which the HTTP request is in flight) and, on
finishing, releasing the permit and appending its outcome to the shared
success / failed lists.
-/

/-- A CSV row as handed to `make_vapi_call`: a string-keyed dictionary.
Modelled as an association list; `Row.get` is Python `dict.get`, returning
`none` when the key is absent. -/
def Row : Type := List (String × String)

instance : DecidableEq Row := by
  unfold Row
  infer_instance

/-- Python `row.get(key)`. -/
def Row.get (r : Row) (key : String) : Option String :=
  (List.find? (fun kv => kv.1 = key) r).map (fun kv => kv.2)

/-- The parsed JSON body of a 2xx response, as far as the script reads it:
`data.get('callId')` yields `none` when the field is absent or JSON null. -/
structure JsonBody where
  callId : Option String
deriving DecidableEq

instance {ε α : Type} [DecidableEq ε] [DecidableEq α] : DecidableEq (Except ε α) := fun a b =>
  match a, b with
  | .error e, .error f => decidable_of_iff (e = f) (by simp)
  | .ok x, .ok y => decidable_of_iff (x = y) (by simp)
  | .error _, .ok _ => isFalse (by simp)
  | .ok _, .error _ => isFalse (by simp)

/-- The observable result of the `session.post` interaction for one call,
matching the branch points of `make_vapi_call`:
an HTTP response (status, raw body text, and the result of `resp.json()` —
`Except.error msg` when parsing raises, carrying the exception text),
an `aiohttp.ClientError` with message `str(e)`, an `asyncio.TimeoutError`,
or any other unexpected exception with message `str(e)`. -/
inductive CallEnv where
  | httpResponse (status : Nat) (text : String) (body : Except String JsonBody)
  | clientError (msg : String)
  | timeoutErr
  | unexpectedErr (msg : String)
deriving DecidableEq

/-- One entry of `results['success']`: `{'phone_number': ..., 'callId': call_id}`.
`callId` is `Option String` because Python stores `data.get('callId')`,
which is `None` when the field is absent or null. -/
structure SuccessRec where
  phone_number : Option String
  callId : Option String
deriving DecidableEq

/-- One entry of `results['failed']`: `{'phone_number': ..., 'error': ...}`. -/
structure FailRec where
  phone_number : Option String
  error : String
deriving DecidableEq

/-- The single record a call's unit of work appends: either to
`results['success']` or to `results['failed']`. -/
inductive CallOutcome where
  | success (r : SuccessRec)
  | failure (r : FailRec)
deriving DecidableEq

/-- The error detail of a failure outcome, if any. -/
def CallOutcome.errorDetail? : CallOutcome → Option String
  | .success _ => none
  | .failure r => some r.error

/-- The body of `make_vapi_call` (lines 94–128) after the POST has yielded
`env`: status outside [200,300) records a failure with
`f"{resp.status} {text}"`; otherwise the parsed body's `callId` is recorded
as a success; `aiohttp.ClientError` records `str(e)`;
`asyncio.TimeoutError` records `'Timeout'`; any other exception —
including a JSON decode error raised by `resp.json()` — records `str(e)`. -/
def make_vapi_call (row : Row) (env : CallEnv) : CallOutcome :=
  let phone_number := row.get "phone_number"
  match env with
  | .httpResponse status text body =>
      if status < 200 ∨ 300 ≤ status then
        .failure ⟨phone_number, toString status ++ " " ++ text⟩
      else
        match body with
        | .error emsg => .failure ⟨phone_number, emsg⟩
        | .ok data => .success ⟨phone_number, data.callId⟩
  | .clientError msg => .failure ⟨phone_number, msg⟩
  | .timeoutErr => .failure ⟨phone_number, "Timeout"⟩
  | .unexpectedErr msg => .failure ⟨phone_number, msg⟩

example :
    make_vapi_call [("phone_number", "+15551234567")]
      (.httpResponse 500 "server error" (.error "boom")) =
    .failure ⟨some "+15551234567", "500 server error"⟩ := by decide

example :
    make_vapi_call [("phone_number", "+15551234567")]
      (.httpResponse 201 "x" (.ok ⟨some "abc123"⟩)) =
    .success ⟨some "+15551234567", some "abc123"⟩ := by decide

/-- The module-level configuration constants read by `load_config`
(lines 26–29): the three credential strings and `MAX_CONCURRENT_CALLS`,
an arbitrary integer. -/
structure ScriptConfig where
  VAPI_API_KEY : String
  VAPI_PHONE_NUMBER_ID : String
  VAPI_WORKFLOW_ID : String
  MAX_CONCURRENT_CALLS : Int
deriving DecidableEq

/-- `load_config` (lines 42–53): collects the config dictionary and exits
with a message when any value other than `MAX_CONCURRENT_CALLS` is falsy
(for strings: empty). `MAX_CONCURRENT_CALLS` is explicitly exempted from
the check (`k != 'MAX_CONCURRENT_CALLS'`) and is never validated. -/
def load_config (c : ScriptConfig) : Except String ScriptConfig :=
  let missing :=
    (if c.VAPI_API_KEY = "" then ["VAPI_API_KEY"] else []) ++
    (if c.VAPI_PHONE_NUMBER_ID = "" then ["VAPI_PHONE_NUMBER_ID"] else []) ++
    (if c.VAPI_WORKFLOW_ID = "" then ["VAPI_WORKFLOW_ID"] else [])
  if missing ≠ [] then
    Except.error ("Missing required configuration values: " ++
      String.intercalate ", " missing ++ ". Please set them at the top of the script.")
  else
    Except.ok c

/-- The observable result of the `requests.get` call inside
`check_vapi_credentials`: an HTTP response with status code and body text,
or a `requests.RequestException` with message `str(e)`. -/
inductive CredCheckEnv where
  | response (status_code : Nat) (text : String)
  | requestException (msg : String)
deriving DecidableEq

/-- What `check_vapi_credentials` does to the process: exit(1) after the
invalid-key log message, exit(1) after some other error log message, or
return normally. -/
inductive CredResult where
  | exitInvalid
  | exitGeneric (detail : String)
  | proceed
deriving DecidableEq

/-- `check_vapi_credentials` (lines 64–79): 401 exits with the
invalid-key error; any other status different from 200 exits with
`f"{resp.status_code} {resp.text}"`; a `RequestException` exits with its
message; only a 200 response returns normally. -/
def check_vapi_credentials (env : CredCheckEnv) : CredResult :=
  match env with
  | .response status_code text =>
      if status_code = 401 then .exitInvalid
      else if status_code ≠ 200 then .exitGeneric (toString status_code ++ " " ++ text)
      else .proceed
  | .requestException msg => .exitGeneric ("Error checking Vapi credentials: " ++ msg)

/-! ## The bounded-concurrency scheduler of `process_calls`

`process_calls` (lines 131–140) creates `asyncio.Semaphore(MAX_CONCURRENT_CALLS)`
— whose constructor raises `ValueError` for a negative argument before any
task exists — then launches one `make_vapi_call` task per row and awaits
them all with `asyncio.gather`.  Each task's life is:

* `waiting`: created, blocked on `async with semaphore`;
* `running`: holds one semaphore permit; this is the phase in which its
  HTTP POST is issued and in flight;
* `done`: has appended its single outcome record and released the permit.

The event loop's interleaving is the nondeterministic `Step` relation. -/

inductive TaskPhase where
  | waiting
  | running
  | done
deriving DecidableEq

/-- Is this task currently holding a semaphore permit (request in flight)? -/
def TaskPhase.isRunning : TaskPhase → Bool
  | .running => true
  | _ => false

/-- Has this task appended its outcome and released its permit? -/
def TaskPhase.isDone : TaskPhase → Bool
  | .done => true
  | _ => false

/-- The work item of one task: its CSV row and its transport oracle. -/
def WorkItem : Type := Row × CallEnv

instance : DecidableEq WorkItem := by
  unfold WorkItem
  infer_instance

/-- The outcome the task for work item `w` will record. -/
def outcomeOf (w : WorkItem) : CallOutcome :=
  make_vapi_call w.1 w.2

/-- State of the event loop during `process_calls`: the immutable work
list, one phase per task, the semaphore's available permit count, and the
shared `results['success']` / `results['failed']` lists (appended at the
end, as Python `list.append` does). -/
structure SchedState where
  work : List WorkItem
  phases : List TaskPhase
  sem : Nat
  success : List SuccessRec
  failed : List FailRec
deriving DecidableEq

/-- Number of tasks currently holding a semaphore permit. -/
def runningCount (s : SchedState) : Nat :=
  s.phases.countP TaskPhase.isRunning

/-- Append the outcome of work item `w` to the appropriate results list. -/
def appendOutcome (s : SchedState) (w : WorkItem) : SchedState :=
  match outcomeOf w with
  | .success r => { s with success := s.success ++ [r] }
  | .failure r => { s with failed := s.failed ++ [r] }

/-- Task `i` finishes: its outcome is appended, its permit released, its
phase set to `done`. -/
def finishTask (s : SchedState) (i : Nat) (h : i < s.work.length) : SchedState :=
  appendOutcome
    { s with phases := s.phases.set i TaskPhase.done, sem := s.sem + 1 }
    (s.work.get ⟨i, h⟩)

/-- One scheduling step of the event loop: a waiting task acquires a
permit (and sends its request), or a running task receives its transport
result, records its single outcome and releases its permit. -/
inductive Step : SchedState → SchedState → Prop
  | acquire (s : SchedState) (i : Nat) (h : i < s.phases.length)
      (hw : s.phases.get ⟨i, h⟩ = TaskPhase.waiting) (hs : 0 < s.sem) :
      Step s { s with phases := s.phases.set i TaskPhase.running, sem := s.sem - 1 }
  | finish (s : SchedState) (i : Nat) (h : i < s.phases.length) (hw : i < s.work.length)
      (hr : s.phases.get ⟨i, h⟩ = TaskPhase.running) :
      Step s (finishTask s i hw)

/-- Zero or more scheduling steps. -/
def Reaches : SchedState → SchedState → Prop :=
  Relation.ReflTransGen Step

/-- All tasks have completed (the `asyncio.gather` await is satisfied). -/
def isFinal (s : SchedState) : Bool :=
  s.phases.all TaskPhase.isDone

/-- The state of `process_calls` just after the semaphore and the task
list are created: `m` permits, every task waiting, both result lists
empty. -/
def initState (work : List WorkItem) (m : Nat) : SchedState :=
  ⟨work, work.map (fun _ => TaskPhase.waiting), m, [], []⟩

/-- Entry of `process_calls` (lines 131–140): constructing
`asyncio.Semaphore(MAX_CONCURRENT_CALLS)` raises
`ValueError("Semaphore initial value must be >= 0")` when the argument is
negative; otherwise the initial scheduler state is set up.  No other
validation of `MAX_CONCURRENT_CALLS` is performed. -/
def process_calls_start (work : List WorkItem) (c : ScriptConfig) : Except String SchedState :=
  if c.MAX_CONCURRENT_CALLS < 0 then
    Except.error "Semaphore initial value must be >= 0"
  else
    Except.ok (initState work c.MAX_CONCURRENT_CALLS.toNat)

/-! ## Bookkeeping: which records the done tasks have contributed -/

/-- The success records work item `w` contributes (one if its outcome is a
success, none otherwise). -/
def succList (w : WorkItem) : List SuccessRec :=
  match outcomeOf w with
  | .success r => [r]
  | .failure _ => []

/-- The failure records work item `w` contributes. -/
def failList (w : WorkItem) : List FailRec :=
  match outcomeOf w with
  | .success _ => []
  | .failure r => [r]

/-- The records selected by `sel` contributed by the tasks whose phase is
`done`, in task order. -/
def doneSel {α : Type} (sel : WorkItem → List α) :
    List WorkItem → List TaskPhase → List α
  | [], _ => []
  | _ :: _, [] => []
  | w :: ws, p :: ps => (if p.isDone then sel w else []) ++ doneSel sel ws ps

/-- The records selected by `sel` contributed by all work items. -/
def allSel {α : Type} (sel : WorkItem → List α) : List WorkItem → List α
  | [] => []
  | w :: ws => sel w ++ allSel sel ws

/-- The scheduler invariant, relative to the initial permit count `M` and
the submitted work list. -/
structure SchedInv (M : Nat) (work : List WorkItem) (s : SchedState) : Prop where
  workEq : s.work = work
  len : s.phases.length = work.length
  semInv : s.sem + runningCount s = M
  succPerm : s.success.Perm (doneSel succList s.work s.phases)
  failPerm : s.failed.Perm (doneSel failList s.work s.phases)

theorem doneSel_nil_phases {α : Type} (sel : WorkItem → List α) (ws : List WorkItem) :
    doneSel sel ws [] = [] := by
  cases ws <;> simp [doneSel]

/-- Overwriting a non-done phase with another non-done phase does not
change the contributed records. -/
theorem doneSel_set_eq {α : Type} (sel : WorkItem → List α) :
    ∀ (ws : List WorkItem) (ps : List TaskPhase) (i : Nat) (p' : TaskPhase)
      (h : i < ps.length), p'.isDone = (ps.get ⟨i, h⟩).isDone →
      doneSel sel ws (ps.set i p') = doneSel sel ws ps := by
  intro ws ps
  induction ps generalizing ws with
  | nil => intro i p' h; exact absurd h (by simp)
  | cons p ps ih =>
      intro i p' h hiso
      cases ws with
      | nil => simp [doneSel]
      | cons w ws =>
          cases i with
          | zero =>
              simp only [List.get] at hiso
              simp [doneSel, hiso]
          | succ i =>
              simp only [List.set]
              simp only [doneSel]
              rw [ih ws i p' (by simpa using h) (by simpa using hiso)]

/-- Marking a previously non-done task `i` as done adds exactly that
task's contribution, up to permutation. -/
theorem doneSel_set_done {α : Type} (sel : WorkItem → List α) :
    ∀ (i : Nat) (ws : List WorkItem) (ps : List TaskPhase)
      (h : i < ps.length) (hw : i < ws.length),
      (ps.get ⟨i, h⟩).isDone = false →
      (doneSel sel ws (ps.set i TaskPhase.done)).Perm
        (sel (ws.get ⟨i, hw⟩) ++ doneSel sel ws ps) := by
  intro i
  induction i with
  | zero =>
      intro ws ps h hw hnd
      cases ps with
      | nil => exact absurd h (by simp)
      | cons p ps =>
          cases ws with
          | nil => exact absurd hw (by simp)
          | cons w ws =>
              simp only [List.get] at hnd
              simp [doneSel, hnd]
              simp [TaskPhase.isDone]
  | succ i ih =>
      intro ws ps h hw hnd
      cases ps with
      | nil => exact absurd h (by simp)
      | cons p ps =>
          cases ws with
          | nil => exact absurd hw (by simp)
          | cons w ws =>
              simp only [List.set, doneSel, List.get]
              have hperm := ih ws ps (by simpa using h) (by simpa using hw)
                (by simpa using hnd)
              refine ((hperm.append_left _).trans ?_)
              rw [← List.append_assoc, ← List.append_assoc]
              exact (List.perm_append_comm.append_right _)

/-- When every task is done, the contributed records are exactly those of
the whole work list. -/
theorem doneSel_all_done {α : Type} (sel : WorkItem → List α) :
    ∀ (ws : List WorkItem) (ps : List TaskPhase),
      ps.length = ws.length → ps.all TaskPhase.isDone = true →
      doneSel sel ws ps = allSel sel ws := by
  intro ws
  induction ws with
  | nil => intro ps _ _; cases ps <;> simp [doneSel, allSel]
  | cons w ws ih =>
      intro ps hlen hall
      cases ps with
      | nil => simp at hlen
      | cons p ps =>
          simp only [List.all_cons, Bool.and_eq_true] at hall
          simp only [doneSel, allSel, hall.1, if_pos]
          rw [ih ps (by simpa using hlen) hall.2]

/-- The initial all-waiting phase list contributes nothing. -/
theorem doneSel_init {α : Type} (sel : WorkItem → List α) :
    ∀ (ws vs : List WorkItem),
      doneSel sel ws (vs.map (fun _ => TaskPhase.waiting)) = [] := by
  intro ws vs
  induction vs generalizing ws with
  | nil => simp [doneSel_nil_phases]
  | cons v vs ih =>
      cases ws with
      | nil => simp [doneSel]
      | cons w ws => simpa [doneSel, TaskPhase.isDone] using ih ws

/-- Overwriting a non-matching element with a matching one increments a
count. -/
theorem countP_set_incr (p : TaskPhase → Bool) :
    ∀ (ps : List TaskPhase) (i : Nat) (v : TaskPhase) (h : i < ps.length),
      p v = true → p (ps.get ⟨i, h⟩) = false →
      (ps.set i v).countP p = ps.countP p + 1 := by
  intro ps
  induction ps with
  | nil => intro i v h; exact absurd h (by simp)
  | cons q ps ih =>
      intro i v h hv hq
      cases i with
      | zero =>
          simp only [List.get] at hq
          simp [List.countP_cons, hv, hq]
      | succ i =>
          simp only [List.get] at hq
          simp only [List.set, List.countP_cons]
          rw [ih i v (by simpa using h) hv hq]
          omega

/-- Overwriting a matching element with a non-matching one decrements a
count. -/
theorem countP_set_decr (p : TaskPhase → Bool) :
    ∀ (ps : List TaskPhase) (i : Nat) (v : TaskPhase) (h : i < ps.length),
      p v = false → p (ps.get ⟨i, h⟩) = true →
      ps.countP p = (ps.set i v).countP p + 1 := by
  intro ps
  induction ps with
  | nil => intro i v h; exact absurd h (by simp)
  | cons q ps ih =>
      intro i v h hv hq
      cases i with
      | zero =>
          simp only [List.get] at hq
          simp [List.countP_cons, hv, hq]
      | succ i =>
          simp only [List.get] at hq
          simp only [List.set, List.countP_cons]
          rw [ih i v (by simpa using h) hv hq]
          omega

/-- In the initial all-waiting phase list no task is running. -/
theorem countP_running_init (ws : List WorkItem) :
    (ws.map (fun _ => TaskPhase.waiting)).countP TaskPhase.isRunning = 0 := by
  induction ws with
  | nil => simp
  | cons w ws ih => simp [List.countP_cons, TaskPhase.isRunning, ih]

/-- Each work item contributes exactly one record in total. -/
theorem allSel_length (ws : List WorkItem) :
    (allSel succList ws).length + (allSel failList ws).length = ws.length := by
  induction ws with
  | nil => simp [allSel]
  | cons w ws ih =>
      simp only [allSel, List.length_append]
      cases ho : outcomeOf w <;> simp [succList, failList, ho] <;> omega

/-- The invariant holds in the initial state. -/
theorem schedInv_init (work : List WorkItem) (M : Nat) :
    SchedInv M work (initState work M) := by
  refine ⟨rfl, by simp [initState], ?_, ?_, ?_⟩
  · show M + (work.map (fun _ => TaskPhase.waiting)).countP TaskPhase.isRunning = M
    rw [countP_running_init]
    omega
  · show ([] : List SuccessRec).Perm
      (doneSel succList work (work.map (fun _ => TaskPhase.waiting)))
    rw [doneSel_init]
  · show ([] : List FailRec).Perm
      (doneSel failList work (work.map (fun _ => TaskPhase.waiting)))
    rw [doneSel_init]

/-- Every scheduler step preserves the invariant. -/
theorem step_schedInv {M : Nat} {work : List WorkItem} {s s' : SchedState}
    (hstep : Step s s') (hinv : SchedInv M work s) : SchedInv M work s' := by
  obtain ⟨hw, hlen, hsem, hsp, hfp⟩ := hinv
  simp only [runningCount] at hsem
  cases hstep with
  | acquire i h hwait hs =>
      have hincr := countP_set_incr TaskPhase.isRunning s.phases i .running h rfl
        (by rw [hwait]; rfl)
      have hds := doneSel_set_eq succList s.work s.phases i .running h
        (by rw [hwait]; rfl)
      have hdf := doneSel_set_eq failList s.work s.phases i .running h
        (by rw [hwait]; rfl)
      refine ⟨hw, by simpa using hlen, ?_, ?_, ?_⟩
      · show s.sem - 1 +
          (s.phases.set i TaskPhase.running).countP TaskPhase.isRunning = M
        omega
      · show s.success.Perm (doneSel succList s.work (s.phases.set i TaskPhase.running))
        rw [hds]; exact hsp
      · show s.failed.Perm (doneSel failList s.work (s.phases.set i TaskPhase.running))
        rw [hdf]; exact hfp
  | finish i h hwlt hrun =>
      have hdecr := countP_set_decr TaskPhase.isRunning s.phases i .done h rfl
        (by rw [hrun]; rfl)
      have hnd : (s.phases.get ⟨i, h⟩).isDone = false := by rw [hrun]; rfl
      have hds := doneSel_set_done succList i s.work s.phases h hwlt hnd
      have hdf := doneSel_set_done failList i s.work s.phases h hwlt hnd
      cases ho : outcomeOf (s.work.get ⟨i, hwlt⟩) with
      | success r =>
          have hsl : succList (s.work.get ⟨i, hwlt⟩) = [r] := by
            unfold succList; rw [ho]
          have hfl : failList (s.work.get ⟨i, hwlt⟩) = [] := by
            unfold failList; rw [ho]
          rw [hsl] at hds
          rw [hfl] at hdf
          simp only [List.nil_append] at hdf
          refine ⟨?_, ?_, ?_, ?_, ?_⟩ <;>
            simp only [finishTask, appendOutcome, ho]
          · exact hw
          · simpa using hlen
          · show s.sem + 1 +
              (s.phases.set i TaskPhase.done).countP TaskPhase.isRunning = M
            omega
          · show (s.success ++ [r]).Perm
              (doneSel succList s.work (s.phases.set i TaskPhase.done))
            exact (List.perm_append_comm.trans (hsp.append_left [r])).trans hds.symm
          · show s.failed.Perm (doneSel failList s.work (s.phases.set i TaskPhase.done))
            exact hfp.trans hdf.symm
      | failure r =>
          have hsl : succList (s.work.get ⟨i, hwlt⟩) = [] := by
            unfold succList; rw [ho]
          have hfl : failList (s.work.get ⟨i, hwlt⟩) = [r] := by
            unfold failList; rw [ho]
          rw [hsl] at hds
          simp only [List.nil_append] at hds
          rw [hfl] at hdf
          refine ⟨?_, ?_, ?_, ?_, ?_⟩ <;>
            simp only [finishTask, appendOutcome, ho]
          · exact hw
          · simpa using hlen
          · show s.sem + 1 +
              (s.phases.set i TaskPhase.done).countP TaskPhase.isRunning = M
            omega
          · show s.success.Perm (doneSel succList s.work (s.phases.set i TaskPhase.done))
            exact hsp.trans hds.symm
          · show (s.failed ++ [r]).Perm
              (doneSel failList s.work (s.phases.set i TaskPhase.done))
            exact (List.perm_append_comm.trans (hfp.append_left [r])).trans hdf.symm

/-- The invariant holds in every reachable state. -/
theorem reaches_schedInv {M : Nat} {work : List WorkItem} {s s' : SchedState}
    (hr : Reaches s s') (hinv : SchedInv M work s) : SchedInv M work s' := by
  induction hr with
  | refl => exact hinv
  | tail _ hstep ih => exact step_schedInv hstep ih

/-- In a final state the result lists are, up to completion order, exactly
the outcomes of the whole work list. -/
theorem final_results {M : Nat} {work : List WorkItem} {s : SchedState}
    (hinv : SchedInv M work s) (hfin : isFinal s = true) :
    s.success.Perm (allSel succList work) ∧ s.failed.Perm (allSel failList work) := by
  obtain ⟨hw, hlen, _, hsp, hfp⟩ := hinv
  rw [hw] at hsp hfp
  rw [doneSel_all_done succList work s.phases hlen hfin] at hsp
  rw [doneSel_all_done failList work s.phases hlen hfin] at hfp
  exact ⟨hsp, hfp⟩

/-- In a final state exactly one outcome record exists per work item. -/
theorem final_counts {M : Nat} {work : List WorkItem} {s : SchedState}
    (hinv : SchedInv M work s) (hfin : isFinal s = true) :
    s.success.length + s.failed.length = work.length := by
  obtain ⟨h1, h2⟩ := final_results hinv hfin
  rw [h1.length_eq, h2.length_eq]
  exact allSel_length work

/-- A record contributed by any single work item appears among the records
of the whole list. -/
theorem mem_allSel_of_get {α : Type} (sel : WorkItem → List α) :
    ∀ (ws : List WorkItem) (i : Nat) (hi : i < ws.length) (x : α),
      x ∈ sel (ws.get ⟨i, hi⟩) → x ∈ allSel sel ws := by
  intro ws
  induction ws with
  | nil => intro i hi; exact absurd hi (by simp)
  | cons w ws ih =>
      intro i hi x hx
      cases i with
      | zero => exact List.mem_append_left _ hx
      | succ i => exact List.mem_append_right _ (ih i (by simpa using hi) x hx)

/-- With an exhausted semaphore and no running task, the scheduler is
stuck: no step is possible when zero permits were ever issued. -/
theorem no_step_of_sem_zero {work : List WorkItem} {s s' : SchedState}
    (hinv : SchedInv 0 work s) (hstep : Step s s') : False := by
  obtain ⟨_, _, hsem, _, _⟩ := hinv
  simp only [runningCount] at hsem
  cases hstep with
  | acquire i h hwait hs => omega
  | finish i h hwlt hrun =>
      have hpos : 0 < s.phases.countP TaskPhase.isRunning :=
        List.countP_pos_iff.mpr
          ⟨s.phases.get ⟨i, h⟩, List.get_mem s.phases i h, by rw [hrun]; rfl⟩
      omega

/-- With `MAX_CONCURRENT_CALLS = 0` the initial state is the only
reachable state: no call is ever admitted. -/
theorem reaches_eq_of_sem_zero {work : List WorkItem} {s t : SchedState}
    (hinv : SchedInv 0 work s) (hr : Reaches s t) : t = s := by
  induction hr with
  | refl => rfl
  | tail hab hbc ih =>
      rw [ih] at hbc
      exact (no_step_of_sem_zero hinv hbc).elim

/-- Remaining effort of a task: 2 when waiting, 1 while running, 0 done. -/
def phaseWeight : TaskPhase → Nat
  | .waiting => 2
  | .running => 1
  | .done => 0

/-- Total remaining effort of the batch. -/
def schedMeasure (s : SchedState) : Nat :=
  (s.phases.map phaseWeight).sum

/-- Updating one phase exchanges its weight in the total. -/
theorem sum_weight_set :
    ∀ (ps : List TaskPhase) (i : Nat) (v : TaskPhase) (h : i < ps.length),
      ((ps.set i v).map phaseWeight).sum + phaseWeight (ps.get ⟨i, h⟩) =
        (ps.map phaseWeight).sum + phaseWeight v := by
  intro ps
  induction ps with
  | nil => intro i v h; exact absurd h (by simp)
  | cons q ps ih =>
      intro i v h
      cases i with
      | zero => simp [List.get]; omega
      | succ i =>
          simp only [List.set, List.map, List.sum_cons, List.get]
          have := ih i v (by simpa using h)
          omega

/-- The phases of the state after a task finishes. -/
theorem finishTask_phases (s : SchedState) (i : Nat) (h : i < s.work.length) :
    (finishTask s i h).phases = s.phases.set i TaskPhase.done := by
  unfold finishTask appendOutcome
  cases outcomeOf (s.work.get ⟨i, h⟩) <;> rfl

/-- A state with an unfinished task has positive remaining effort. -/
theorem schedMeasure_pos_of_not_final {s : SchedState}
    (hnf : isFinal s = false) : 0 < schedMeasure s := by
  obtain ⟨p, hp, hpd⟩ := List.all_eq_false.mp hnf
  have hw : phaseWeight p ∈ s.phases.map phaseWeight := List.mem_map_of_mem phaseWeight hp
  have hle : phaseWeight p ≤ (s.phases.map phaseWeight).sum :=
    List.single_le_sum (fun _ _ => Nat.zero_le _) _ hw
  have hppos : 0 < phaseWeight p := by
    cases p
    · simp [phaseWeight]
    · simp [phaseWeight]
    · simp [TaskPhase.isDone] at hpd
  simp only [schedMeasure]
  omega

/-- As long as at least one permit exists and some task is unfinished, the
scheduler can take a step that strictly decreases the remaining effort. -/
theorem step_exists_of_not_final {M : Nat} {work : List WorkItem} {s : SchedState}
    (hM : 1 ≤ M) (hinv : SchedInv M work s) (hnf : isFinal s = false) :
    ∃ s', Step s s' ∧ schedMeasure s' < schedMeasure s := by
  obtain ⟨hw, hlen, hsem, _, _⟩ := hinv
  simp only [runningCount] at hsem
  by_cases hr : s.phases.countP TaskPhase.isRunning = 0
  · obtain ⟨p, hp, hpd⟩ := List.all_eq_false.mp hnf
    obtain ⟨⟨i, hilt⟩, hget⟩ := List.mem_iff_get.mp hp
    have hnr : TaskPhase.isRunning p = false := by
      have := List.countP_eq_zero.mp hr p hp
      simpa using this
    have hpw : p = TaskPhase.waiting := by
      cases p
      · rfl
      · simp [TaskPhase.isRunning] at hnr
      · simp [TaskPhase.isDone] at hpd
    have hwait : s.phases.get ⟨i, hilt⟩ = TaskPhase.waiting := by rw [hget, hpw]
    have hs : 0 < s.sem := by omega
    refine ⟨_, Step.acquire s i hilt hwait hs, ?_⟩
    have hsum := sum_weight_set s.phases i TaskPhase.running hilt
    rw [hwait] at hsum
    simp only [phaseWeight] at hsum
    simp only [schedMeasure]
    omega
  · have hpos : 0 < s.phases.countP TaskPhase.isRunning := Nat.pos_of_ne_zero hr
    obtain ⟨p, hp, hpr⟩ := List.countP_pos_iff.mp hpos
    obtain ⟨⟨i, hilt⟩, hget⟩ := List.mem_iff_get.mp hp
    have hpw : p = TaskPhase.running := by
      cases p
      · simp [TaskPhase.isRunning] at hpr
      · rfl
      · simp [TaskPhase.isRunning] at hpr
    have hrun : s.phases.get ⟨i, hilt⟩ = TaskPhase.running := by rw [hget, hpw]
    have hwleq : s.work.length = work.length := by rw [hw]
    have hwlt : i < s.work.length := by omega
    refine ⟨_, Step.finish s i hilt hwlt hrun, ?_⟩
    have hsum := sum_weight_set s.phases i TaskPhase.done hilt
    rw [hrun] at hsum
    simp only [phaseWeight] at hsum
    simp only [schedMeasure, finishTask_phases]
    omega

/-- From any invariant-satisfying state with at least one permit, a final
state is reachable: `asyncio.gather` terminates. -/
theorem exists_final_of_schedInv :
    ∀ (n M : Nat) (work : List WorkItem) (s : SchedState),
      schedMeasure s ≤ n → 1 ≤ M → SchedInv M work s →
      ∃ t, Reaches s t ∧ isFinal t = true := by
  intro n
  induction n with
  | zero =>
      intro M work s hm hM hinv
      by_cases hfin : isFinal s = true
      · exact ⟨s, Relation.ReflTransGen.refl, hfin⟩
      · have := schedMeasure_pos_of_not_final (by simpa using hfin)
        omega
  | succ n ih =>
      intro M work s hm hM hinv
      by_cases hfin : isFinal s = true
      · exact ⟨s, Relation.ReflTransGen.refl, hfin⟩
      · obtain ⟨s', hstep, hlt⟩ :=
          step_exists_of_not_final hM hinv (by simpa using hfin)
        obtain ⟨t, hrt, hft⟩ :=
          ih M work s' (by omega) hM (step_schedInv hstep hinv)
        exact ⟨t, Relation.ReflTransGen.head hstep hrt, hft⟩

/-! ## Claim theorems -/

/-- C5: for every CallRequest whose remote HTTP response has status
outside [200,300), the unit of work records a Failure outcome for that
phone number whose errorDetail contains both the numeric status code and
the raw response body text. -/
theorem http_error_detail (row : Row) (status : Nat) (text : String)
    (body : Except String JsonBody) (hs : status < 200 ∨ 300 ≤ status) :
    make_vapi_call row (.httpResponse status text body) =
      .failure ⟨row.get "phone_number", toString status ++ " " ++ text⟩ ∧
    (∃ a b, toString status ++ " " ++ text = a ++ toString status ++ b) ∧
    (∃ a b, toString status ++ " " ++ text = a ++ text ++ b) := by
  refine ⟨?_, ⟨"", " " ++ text, ?_⟩, ⟨toString status ++ " ", "", ?_⟩⟩
  · simp [make_vapi_call, hs]
  · simp [String.append_assoc]
  · simp

/-- C5 witness: a 500 response with body "server error". -/
theorem http_error_detail_witness :
    ((500 : Nat) < 200 ∨ 300 ≤ (500 : Nat)) ∧
    (make_vapi_call [("phone_number", "+15551234567")]
        (.httpResponse 500 "server error" (.ok ⟨none⟩)) =
      .failure ⟨some "+15551234567", "500 server error"⟩ ∧
    (∃ a b, ("500 server error" : String) = a ++ "500" ++ b) ∧
    (∃ a b, ("500 server error" : String) = a ++ "server error" ++ b)) :=
  ⟨by decide,
   http_error_detail [("phone_number", "+15551234567")] 500 "server error"
     (.ok ⟨none⟩) (by decide)⟩

/-- C6 counterexample: a 2xx response whose body carries no callId is
recorded as a Success whose callId field is None (null), not the empty
string as the claim states. -/
theorem missing_callId_recorded_as_none :
    make_vapi_call [("phone_number", "+15551234567")]
        (.httpResponse 200 "\x7b\x7d" (.ok ⟨none⟩)) =
      CallOutcome.success ⟨some "+15551234567", none⟩ ∧
    make_vapi_call [("phone_number", "+15551234567")]
        (.httpResponse 200 "\x7b\x7d" (.ok ⟨none⟩)) ≠
      CallOutcome.success ⟨some "+15551234567", some ""⟩ :=
  ⟨by decide, by decide⟩

/-- C6 (amended): for every CallRequest whose remote HTTP response has
status in [200,300), the unit of work records a Success outcome carrying
the phone number and the callId extracted from the response body; when
callId is absent or null it is recorded as null/None (still a Success,
not an error). -/
theorem success_records_callId (row : Row) (status : Nat) (text : String)
    (cid : Option String) (h1 : 200 ≤ status) (h2 : status < 300) :
    make_vapi_call row (.httpResponse status text (.ok ⟨cid⟩)) =
      .success ⟨row.get "phone_number", cid⟩ := by
  have hnot : ¬ (status < 200 ∨ 300 ≤ status) := by omega
  simp [make_vapi_call, hnot]

/-- C6 witness: the spec's worked example, a 201 response with body
carrying callId "abc123". -/
theorem success_records_callId_witness :
    (200 ≤ 201 ∧ 201 < 300) ∧
    make_vapi_call [("phone_number", "+15551234567")]
        (.httpResponse 201 "\x7b\x22callId\x22:\x22abc123\x22\x7d" (.ok ⟨some "abc123"⟩)) =
      .success ⟨some "+15551234567", some "abc123"⟩ :=
  ⟨by decide,
   success_records_callId [("phone_number", "+15551234567")] 201
     "\x7b\x22callId\x22:\x22abc123\x22\x7d" (some "abc123") (by decide) (by decide)⟩

/-- C7: a network-level failure records a Failure outcome whose
errorDetail identifies its kind: a timeout yields the fixed detail
"Timeout", a generic network error yields its own message, and the two
are distinct for any genuine network-error message. -/
theorem timeout_vs_network_error (row : Row) (msg : String) (hmsg : msg ≠ "Timeout") :
    make_vapi_call row .timeoutErr = .failure ⟨row.get "phone_number", "Timeout"⟩ ∧
    make_vapi_call row (.clientError msg) = .failure ⟨row.get "phone_number", msg⟩ ∧
    (make_vapi_call row .timeoutErr).errorDetail? ≠
      (make_vapi_call row (.clientError msg)).errorDetail? := by
  refine ⟨rfl, rfl, ?_⟩
  simp [make_vapi_call, CallOutcome.errorDetail?]
  exact fun h => hmsg h.symm

/-- C7 witness: a realistic connection-error message. -/
theorem timeout_vs_network_error_witness :
    ("Cannot connect to host api.vapi.ai:443" ≠ "Timeout") ∧
    (make_vapi_call [("phone_number", "+15551234567")] .timeoutErr =
      .failure ⟨some "+15551234567", "Timeout"⟩ ∧
    make_vapi_call [("phone_number", "+15551234567")]
        (.clientError "Cannot connect to host api.vapi.ai:443") =
      .failure ⟨some "+15551234567", "Cannot connect to host api.vapi.ai:443"⟩ ∧
    (make_vapi_call [("phone_number", "+15551234567")] .timeoutErr).errorDetail? ≠
      (make_vapi_call [("phone_number", "+15551234567")]
        (.clientError "Cannot connect to host api.vapi.ai:443")).errorDetail?) :=
  ⟨by decide,
   timeout_vs_network_error [("phone_number", "+15551234567")]
     "Cannot connect to host api.vapi.ai:443" (by decide)⟩

/-- C9 counterexample: a 2xx response other than 200 does not let the
program proceed — a 201 account response is treated as a fatal generic
error, contradicting the claim that any 2xx response proceeds. -/
theorem cred_check_201_fatal :
    check_vapi_credentials (.response 201 "Created") = .exitGeneric "201 Created" ∧
    check_vapi_credentials (.response 201 "Created") ≠ .proceed :=
  ⟨by decide, by decide⟩

/-- C9 (amended): check_vapi_credentials exits fatally with the
invalid-credential error on 401; exits fatally with a generic error on
any other status different from 200 (including 2xx statuses such as
201); and proceeds only on exactly 200. -/
theorem cred_check_status_behavior (code : Nat) (text : String) :
    (check_vapi_credentials (.response 401 text) = .exitInvalid) ∧
    (code ≠ 401 → code ≠ 200 →
      check_vapi_credentials (.response code text) =
        .exitGeneric (toString code ++ " " ++ text)) ∧
    (check_vapi_credentials (.response 200 text) = .proceed) := by
  refine ⟨rfl, ?_, rfl⟩
  intro h1 h2
  simp [check_vapi_credentials, h1, h2]

/-- C9 amended witness: a 500 account response exits with the generic
error. -/
theorem cred_check_status_behavior_witness :
    check_vapi_credentials (.response 401 "Unauthorized") = .exitInvalid ∧
    check_vapi_credentials (.response 500 "server error") =
      .exitGeneric "500 server error" ∧
    check_vapi_credentials (.response 200 "ok") = .proceed :=
  ⟨(cred_check_status_behavior 500 "Unauthorized").1,
   (cred_check_status_behavior 500 "server error").2.1 (by decide) (by decide),
   (cred_check_status_behavior 500 "ok").2.2⟩

/-- C10: a 2xx response whose body is not valid JSON is recorded as a
Failure outcome (carrying the decode exception's message), never as a
Success — a well-formed JSON body is required for a Success record. -/
theorem invalid_json_failure (row : Row) (status : Nat) (text : String) (emsg : String)
    (h1 : 200 ≤ status) (h2 : status < 300) :
    make_vapi_call row (.httpResponse status text (.error emsg)) =
      .failure ⟨row.get "phone_number", emsg⟩ ∧
    ∀ r, make_vapi_call row (.httpResponse status text (.error emsg)) ≠
      CallOutcome.success r := by
  have hnot : ¬ (status < 200 ∨ 300 ≤ status) := by omega
  constructor
  · simp [make_vapi_call, hnot]
  · intro r
    simp [make_vapi_call, hnot]

/-- C10 witness: a 200 response with a non-JSON body. -/
theorem invalid_json_failure_witness :
    (200 ≤ 200 ∧ 200 < 300) ∧
    (make_vapi_call [("phone_number", "+15551234567")]
        (.httpResponse 200 "<html>" (.error "Expecting value: line 1 column 1 (char 0)")) =
      .failure ⟨some "+15551234567", "Expecting value: line 1 column 1 (char 0)"⟩ ∧
    ∀ r, make_vapi_call [("phone_number", "+15551234567")]
        (.httpResponse 200 "<html>" (.error "Expecting value: line 1 column 1 (char 0)")) ≠
      CallOutcome.success r) :=
  ⟨by decide,
   invalid_json_failure [("phone_number", "+15551234567")] 200 "<html>"
     "Expecting value: line 1 column 1 (char 0)" (by decide) (by decide)⟩

/-- No scheduler step exists when there are no tasks. -/
theorem no_step_of_no_tasks {s s' : SchedState} (h : s.phases = [])
    (hstep : Step s s') : False := by
  cases hstep with
  | acquire i hlt hwait hs => rw [h] at hlt; exact absurd hlt (by simp)
  | finish i hlt hwlt hrun => rw [h] at hlt; exact absurd hlt (by simp)

/-- A state with no tasks only reaches itself. -/
theorem reaches_eq_of_no_tasks {s t : SchedState} (h : s.phases = [])
    (hr : Reaches s t) : t = s := by
  induction hr with
  | refl => rfl
  | tail hab hbc ih =>
      rw [ih] at hbc
      exact (no_step_of_no_tasks h hbc).elim

/-- Validity of `load_config` depends only on the three credential
strings; `MAX_CONCURRENT_CALLS` is never examined. -/
theorem load_config_isOk (c : ScriptConfig) :
    (load_config c).isOk = true ↔
      (c.VAPI_API_KEY ≠ "" ∧ c.VAPI_PHONE_NUMBER_ID ≠ "" ∧ c.VAPI_WORKFLOW_ID ≠ "") := by
  unfold load_config
  by_cases h1 : c.VAPI_API_KEY = "" <;> by_cases h2 : c.VAPI_PHONE_NUMBER_ID = "" <;>
    by_cases h3 : c.VAPI_WORKFLOW_ID = "" <;>
      simp [h1, h2, h3, Except.isOk, Except.toBool]

/-- C1: for every list of CallRequests of size N and every DispatchConfig
(maxConcurrency ≥ 1, as the data model requires), `process_calls` starts
without error, a completed execution exists, and every completed
execution yields exactly N outcome records — the success and failed lists
are, up to completion order, exactly the outcomes of the submitted
requests, so each request yields exactly one outcome, none duplicated,
none dropped. -/
theorem dispatch_count_invariant (work : List WorkItem) (c : ScriptConfig)
    (hM : 1 ≤ c.MAX_CONCURRENT_CALLS) :
    ∃ s0, process_calls_start work c = Except.ok s0 ∧
      (∃ t, Reaches s0 t ∧ isFinal t = true) ∧
      ∀ t, Reaches s0 t → isFinal t = true →
        t.success.length + t.failed.length = work.length ∧
        t.success.Perm (allSel succList work) ∧
        t.failed.Perm (allSel failList work) := by
  have hnn : ¬ c.MAX_CONCURRENT_CALLS < 0 := by omega
  have hM1 : 1 ≤ c.MAX_CONCURRENT_CALLS.toNat := by omega
  refine ⟨initState work c.MAX_CONCURRENT_CALLS.toNat, ?_, ?_, ?_⟩
  · simp [process_calls_start, hnn]
  · exact exists_final_of_schedInv _ _ work _ le_rfl hM1 (schedInv_init work _)
  · intro t hr hf
    have hinv := reaches_schedInv hr (schedInv_init work _)
    exact ⟨final_counts hinv hf, (final_results hinv hf).1, (final_results hinv hf).2⟩

/-- Fixture: a one-request batch whose call times out. -/
def w1 : List WorkItem := [([("phone_number", "+15551234567")], CallEnv.timeoutErr)]

/-- Fixture: a well-formed configuration with maxConcurrency 2. -/
def cfg1 : ScriptConfig := ⟨"key", "pid", "wid", 2⟩

/-- C1 witness: the one-request batch under cfg1. -/
theorem dispatch_count_invariant_witness :
    1 ≤ cfg1.MAX_CONCURRENT_CALLS ∧
    (∃ s0, process_calls_start w1 cfg1 = Except.ok s0 ∧
      (∃ t, Reaches s0 t ∧ isFinal t = true) ∧
      ∀ t, Reaches s0 t → isFinal t = true →
        t.success.length + t.failed.length = w1.length ∧
        t.success.Perm (allSel succList w1) ∧
        t.failed.Perm (allSel failList w1)) :=
  ⟨by decide, dispatch_count_invariant w1 cfg1 (by decide)⟩

/-- C3: with maxConcurrency M ≥ 1, in every state reachable during the
execution of `process_calls` at most M tasks hold an admission slot (are
in their running phase, request in flight) simultaneously. -/
theorem admission_bound (work : List WorkItem) (c : ScriptConfig)
    (s0 t : SchedState) (hM : 1 ≤ c.MAX_CONCURRENT_CALLS)
    (hstart : process_calls_start work c = Except.ok s0)
    (hr : Reaches s0 t) :
    runningCount t ≤ c.MAX_CONCURRENT_CALLS.toNat := by
  have hnn : ¬ c.MAX_CONCURRENT_CALLS < 0 := by omega
  have hs0 : s0 = initState work c.MAX_CONCURRENT_CALLS.toNat := by
    simp [process_calls_start, hnn] at hstart
    exact hstart.symm
  subst hs0
  have hinv := reaches_schedInv hr (schedInv_init work c.MAX_CONCURRENT_CALLS.toNat)
  obtain ⟨_, _, hsem, _, _⟩ := hinv
  omega

/-- C3 witness: the initial state of the one-request batch under cfg1. -/
theorem admission_bound_witness :
    (1 ≤ cfg1.MAX_CONCURRENT_CALLS ∧
     process_calls_start w1 cfg1 = Except.ok (initState w1 2)) ∧
    runningCount (initState w1 2) ≤ cfg1.MAX_CONCURRENT_CALLS.toNat :=
  ⟨⟨by decide, rfl⟩,
   admission_bound w1 cfg1 (initState w1 2) (initState w1 2) (by decide) rfl
     Relation.ReflTransGen.refl⟩

/-- Fixture: the configuration with maxConcurrency 0. -/
def cfg0 : ScriptConfig := ⟨"key", "pid", "wid", 0⟩

/-- Fixture: the configuration with maxConcurrency -1. -/
def cfgNeg : ScriptConfig := ⟨"key", "pid", "wid", -1⟩

/-- C2 counterexample: with maxConcurrency = 0 and a nonempty batch,
dispatch does not fail fast with a configuration error — the semaphore is
constructed successfully and `process_calls` starts normally. -/
theorem maxConcurrency_zero_accepted :
    cfg0.MAX_CONCURRENT_CALLS = 0 ∧
    process_calls_start w1 cfg0 = Except.ok (initState w1 0) ∧
    (process_calls_start w1 cfg0).isOk = true :=
  ⟨rfl, rfl, rfl⟩

/-- C2 (amended): neither `load_config` nor `process_calls` validates
`MAX_CONCURRENT_CALLS` (load_config examines only the three credential
strings).  A negative value raises the semaphore constructor's ValueError
before any request is sent; zero is accepted without any error, after
which no task is ever admitted: nothing is recorded, no request is
issued, and for a nonempty batch the gather never completes. -/
theorem maxConcurrency_no_validation (work : List WorkItem) (c : ScriptConfig) :
    (c.MAX_CONCURRENT_CALLS < 0 →
      process_calls_start work c =
        Except.error "Semaphore initial value must be >= 0") ∧
    (c.MAX_CONCURRENT_CALLS = 0 →
      ∃ s0, process_calls_start work c = Except.ok s0 ∧
        s0.success = [] ∧ s0.failed = [] ∧ runningCount s0 = 0 ∧
        (∀ t, Reaches s0 t → t = s0) ∧
        (work ≠ [] → isFinal s0 = false)) ∧
    ((load_config c).isOk = true ↔
      (c.VAPI_API_KEY ≠ "" ∧ c.VAPI_PHONE_NUMBER_ID ≠ "" ∧
        c.VAPI_WORKFLOW_ID ≠ "")) := by
  refine ⟨?_, ?_, load_config_isOk c⟩
  · intro hneg
    simp [process_calls_start, hneg]
  · intro hzero
    have hnn : ¬ c.MAX_CONCURRENT_CALLS < 0 := by omega
    have ht : c.MAX_CONCURRENT_CALLS.toNat = 0 := by omega
    refine ⟨initState work 0, ?_, rfl, rfl, ?_, ?_, ?_⟩
    · simp [process_calls_start, hnn, ht]
    · exact countP_running_init work
    · intro t hr
      exact reaches_eq_of_sem_zero (schedInv_init work 0) hr
    · intro hne
      cases work with
      | nil => exact absurd rfl hne
      | cons w ws => simp [initState, isFinal, TaskPhase.isDone]

/-- C2 amended witness: maxConcurrency -1 raises the semaphore ValueError
and maxConcurrency 0 starts without error but deadlocks. -/
theorem maxConcurrency_no_validation_witness :
    process_calls_start w1 cfgNeg =
      Except.error "Semaphore initial value must be >= 0" ∧
    (∃ s0, process_calls_start w1 cfg0 = Except.ok s0 ∧
      s0.success = [] ∧ s0.failed = [] ∧ runningCount s0 = 0 ∧
      (∀ t, Reaches s0 t → t = s0) ∧
      (w1 ≠ [] → isFinal s0 = false)) :=
  ⟨(maxConcurrency_no_validation w1 cfgNeg).1 (by decide),
   (maxConcurrency_no_validation w1 cfg0).2.1 (by decide)⟩

/-- C4: an unexpected exception raised inside one request's unit of work
is caught and recorded as a Failure outcome for that request only; the
batch still completes, the final result has exactly one record per
request, and every sibling request's own outcome still appears in the
final result. -/
theorem failure_isolation (work : List WorkItem) (c : ScriptConfig) (j : Nat)
    (hj : j < work.length) (msg : String) (hM : 1 ≤ c.MAX_CONCURRENT_CALLS)
    (henv : (work.get ⟨j, hj⟩).2 = CallEnv.unexpectedErr msg) :
    ∃ s0, process_calls_start work c = Except.ok s0 ∧
      (∃ t, Reaches s0 t ∧ isFinal t = true) ∧
      ∀ t, Reaches s0 t → isFinal t = true →
        t.success.length + t.failed.length = work.length ∧
        (⟨(work.get ⟨j, hj⟩).1.get "phone_number", msg⟩ : FailRec) ∈ t.failed ∧
        ∀ i (hi : i < work.length),
          (∀ r, outcomeOf (work.get ⟨i, hi⟩) = CallOutcome.success r →
            r ∈ t.success) ∧
          (∀ r, outcomeOf (work.get ⟨i, hi⟩) = CallOutcome.failure r →
            r ∈ t.failed) := by
  have hnn : ¬ c.MAX_CONCURRENT_CALLS < 0 := by omega
  have hM1 : 1 ≤ c.MAX_CONCURRENT_CALLS.toNat := by omega
  refine ⟨initState work c.MAX_CONCURRENT_CALLS.toNat, ?_, ?_, ?_⟩
  · simp [process_calls_start, hnn]
  · exact exists_final_of_schedInv _ _ work _ le_rfl hM1 (schedInv_init work _)
  · intro t hr hf
    have hinv := reaches_schedInv hr (schedInv_init work _)
    obtain ⟨hsp, hfp⟩ := final_results hinv hf
    refine ⟨final_counts hinv hf, ?_, ?_⟩
    · have hout : outcomeOf (work.get ⟨j, hj⟩) =
          CallOutcome.failure ⟨(work.get ⟨j, hj⟩).1.get "phone_number", msg⟩ := by
        unfold outcomeOf
        rw [henv]
        rfl
      have hmem : (⟨(work.get ⟨j, hj⟩).1.get "phone_number", msg⟩ : FailRec) ∈
          failList (work.get ⟨j, hj⟩) := by
        unfold failList
        rw [hout]
        exact List.mem_cons_self _ _
      exact hfp.mem_iff.mpr (mem_allSel_of_get failList work j hj _ hmem)
    · intro i hi
      constructor
      · intro r hr'
        refine hsp.mem_iff.mpr (mem_allSel_of_get succList work i hi r ?_)
        unfold succList
        rw [hr']
        exact List.mem_cons_self _ _
      · intro r hr'
        refine hfp.mem_iff.mpr (mem_allSel_of_get failList work i hi r ?_)
        unfold failList
        rw [hr']
        exact List.mem_cons_self _ _

/-- Fixture: a three-request batch whose second unit raises an unexpected
internal exception. -/
def w3 : List WorkItem :=
  [([("phone_number", "+15550000001")], CallEnv.httpResponse 201 "" (.ok ⟨some "abc"⟩)),
   ([("phone_number", "+15550000002")], CallEnv.unexpectedErr "boom"),
   ([("phone_number", "+15550000003")],
     CallEnv.httpResponse 500 "server error" (.ok ⟨none⟩))]

/-- C4 witness: the three-request batch under cfg1. -/
theorem failure_isolation_witness :
    (1 ≤ cfg1.MAX_CONCURRENT_CALLS ∧ (1 : Nat) < w3.length ∧
      (w3.get ⟨1, by decide⟩).2 = CallEnv.unexpectedErr "boom") ∧
    (∃ s0, process_calls_start w3 cfg1 = Except.ok s0 ∧
      (∃ t, Reaches s0 t ∧ isFinal t = true) ∧
      ∀ t, Reaches s0 t → isFinal t = true →
        t.success.length + t.failed.length = w3.length ∧
        (⟨(w3.get ⟨1, by decide⟩).1.get "phone_number", "boom"⟩ : FailRec) ∈ t.failed ∧
        ∀ i (hi : i < w3.length),
          (∀ r, outcomeOf (w3.get ⟨i, hi⟩) = CallOutcome.success r →
            r ∈ t.success) ∧
          (∀ r, outcomeOf (w3.get ⟨i, hi⟩) = CallOutcome.failure r →
            r ∈ t.failed)) :=
  ⟨⟨by decide, by decide, by decide⟩,
   failure_isolation w3 cfg1 1 (by decide) "boom" (by decide) (by decide)⟩

/-- C8: the empty batch under any valid config starts without error, is
immediately complete with both result lists empty, and never takes a
scheduler step — no remote request is ever issued and no error is
raised. -/
theorem empty_batch (c : ScriptConfig) (hM : 1 ≤ c.MAX_CONCURRENT_CALLS) :
    ∃ s0, process_calls_start ([] : List WorkItem) c = Except.ok s0 ∧
      isFinal s0 = true ∧ s0.success = [] ∧ s0.failed = [] ∧
      ∀ t, Reaches s0 t → t = s0 := by
  have hnn : ¬ c.MAX_CONCURRENT_CALLS < 0 := by omega
  refine ⟨initState [] c.MAX_CONCURRENT_CALLS.toNat, ?_, rfl, rfl, rfl, ?_⟩
  · simp [process_calls_start, hnn]
  · intro t hr
    exact reaches_eq_of_no_tasks rfl hr

/-- C8 witness: the empty batch under cfg1. -/
theorem empty_batch_witness :
    1 ≤ cfg1.MAX_CONCURRENT_CALLS ∧
    (∃ s0, process_calls_start ([] : List WorkItem) cfg1 = Except.ok s0 ∧
      isFinal s0 = true ∧ s0.success = [] ∧ s0.failed = [] ∧
      ∀ t, Reaches s0 t → t = s0) :=
  ⟨by decide, empty_batch cfg1 (by decide)⟩
